import Mathlib

/-!
Verification of the `ClickityClick` React component
(src/src/components/ClickityClick.js).

The component holds a single state object `{ hasBeenClicked: false }`,
set in the constructor.  The click handler calls
`this.setState({ hasBeenClicked: true }, () => console.log(this.state.hasBeenClicked))`,
and `render` produces the text
`I have {this.state.hasBeenClicked ? null : 'not'} been clicked!`.

We embed the component shallowly:

* JavaScript values that occur in this program form the type `JSValue`
  (`undefined`, `null`, booleans, strings), with JS truthiness.
* A React state object is a list of named fields,
  `Fields = List (String × JSValue)`, looked up by `lookupField` and
  shallowly merged by `mergeFields` (the `Object.assign`-style merge that
  `setState` performs: fields named in the update object are overridden,
  all others are kept, new fields are appended).
* React's asynchronous commit is modelled explicitly: a `Component` carries
  its committed `state` and a queue `pending` of requested updates (each an
  update object plus a flag recording whether a completion callback was
  supplied).  `setState` only enqueues; `commit` applies the whole batch in
  order, empties the queue and then runs the callbacks.  Each callback in the
  source logs `this.state.hasBeenClicked`, so `commit` also returns the list
  of values observed by the callbacks, in order.
* The rendered text is built exactly as the JSX does — `"I have "`, then
  `'not'` or `null` (React renders `null` as nothing), then
  `" been clicked!"` — and then HTML whitespace collapsing (`squashSpaces`)
  is applied, since the spec talks about the user-visible display text.
-/

/-- JavaScript values occurring in this program. -/
inductive JSValue where
  | undef
  | jsNull
  | bool (b : Bool)
  | str (s : String)
deriving DecidableEq, Repr

/-- JS truthiness for the values we model: `undefined` and `null` are falsy,
booleans are themselves, a string is truthy iff nonempty. -/
def truthy : JSValue → Bool
  | JSValue.undef => false
  | JSValue.jsNull => false
  | JSValue.bool b => b
  | JSValue.str s => s != ""

/-- A React state object: an ordered list of named fields. -/
abbrev Fields := List (String × JSValue)

/-- Property lookup on a state object: first field with the given name. -/
def lookupField : Fields → String → Option JSValue
  | [], _ => none
  | (k1, v) :: rest, k => if k1 = k then some v else lookupField rest k

/-- The shallow merge `setState` performs on the first level of the state
object: every field of `s` keeps its place, overridden when the update
object `u` names it; fields of `u` that are new to `s` are appended. -/
def mergeFields (s u : Fields) : Fields :=
  (s.map fun kv => (kv.1, (lookupField u kv.1).getD kv.2)) ++
    (u.filter fun kv => (lookupField s kv.1).isNone)

/-- One queued `setState` request: the update object passed as the first
argument, and whether a completion callback was supplied as the second. -/
structure PendingUpdate where
  fields : Fields
  hasCallback : Bool
deriving DecidableEq, Repr

/-- The component: the committed state object plus the queue of requested,
not yet committed, `setState` updates. -/
structure Component where
  state : Fields
  pending : List PendingUpdate
deriving DecidableEq, Repr

/-- The constructor: `this.state = { hasBeenClicked: false }`, nothing queued. -/
def initComponent : Component :=
  { state := [("hasBeenClicked", JSValue.bool false)], pending := [] }

/-- `this.setState(u, cb)`: requests an update.  The mutation is only
queued; the committed state is untouched until `commit` runs. -/
def setState (c : Component) (u : Fields) (cb : Bool) : Component :=
  { c with pending := c.pending ++ [{ fields := u, hasCallback := cb }] }

/-- The update object the click handler passes: `{ hasBeenClicked: true }`. -/
def clickFields : Fields := [("hasBeenClicked", JSValue.bool true)]

/-- The queued request the click handler produces (callback supplied). -/
def clickPending : PendingUpdate := { fields := clickFields, hasCallback := true }

/-- `handleClick`: `this.setState({ hasBeenClicked: true }, () => console.log(this.state.hasBeenClicked))`. -/
def handleClick (c : Component) : Component :=
  setState c clickFields true

/-- The event-facing form of the handler: the source arrow function declares
no parameters, so whatever event argument React passes is discarded. -/
def handleClickEv {E : Type} (c : Component) (_ev : E) : Component :=
  handleClick c

/-- React commits a batch: all queued updates are merged into the state in
request order, the queue is emptied, and then each supplied callback runs.
The source callback logs `this.state.hasBeenClicked`, read from the newly
committed state; the returned list is what the callbacks observe, in order. -/
def commit (c : Component) : Component × List JSValue :=
  let ns := c.pending.foldl (fun st p => mergeFields st p.fields) c.state
  ({ state := ns, pending := [] },
    (c.pending.filter fun p => p.hasCallback).map
      fun _ => (lookupField ns "hasBeenClicked").getD JSValue.undef)

/-- Reading the clicked flag from a state object, as the source does:
`this.state.hasBeenClicked` (missing field gives `undefined`), under JS
truthiness as the JSX conditional uses it. -/
def readClicked (st : Fields) : Bool :=
  truthy ((lookupField st "hasBeenClicked").getD JSValue.undef)

/-- Collapse runs of spaces, as HTML rendering does to the text content. -/
def squashChars : List Char → List Char
  | [] => []
  | [c] => [c]
  | c1 :: c2 :: rest =>
    if c1 = ' ' && c2 = ' ' then squashChars (c2 :: rest)
    else c1 :: squashChars (c2 :: rest)

/-- Collapse runs of spaces in a string. -/
def squashSpaces (s : String) : String :=
  String.mk (squashChars s.toList)

/-- The text content the JSX produces:
`I have {this.state.hasBeenClicked ? null : 'not'} been clicked!`, with
React rendering `null` as the empty text. -/
def renderText (st : Fields) : String :=
  "I have " ++ (if readClicked st then "" else "not") ++ " been clicked!"

/-- The user-visible display text: the rendered text content after HTML
whitespace collapsing. -/
def displayText (st : Fields) : String :=
  squashSpaces (renderText st)

/-- `render` as an operation on the component: it returns the display text
and leaves the component exactly as it was (no mutation, no side effect). -/
def displayTextOp (c : Component) : String × Component :=
  (displayText c.state, c)

/-! ### Lemmas about field lookup and the shallow merge -/

theorem lookupField_append (a b : Fields) (k : String) :
    lookupField (a ++ b) k =
      match lookupField a k with
      | some v => some v
      | none => lookupField b k := by
  induction a with
  | nil => rfl
  | cons kv rest ih =>
    obtain ⟨k1, v⟩ := kv
    by_cases h : k1 = k
    · simp [lookupField, h]
    · simp [lookupField, h, ih]

theorem lookupField_map (hf : String → JSValue → JSValue) (s : Fields) (k : String) :
    lookupField (s.map fun kv => (kv.1, hf kv.1 kv.2)) k =
      Option.map (hf k) (lookupField s k) := by
  induction s with
  | nil => rfl
  | cons kv rest ih =>
    obtain ⟨k1, v⟩ := kv
    by_cases h : k1 = k
    · subst h
      simp [lookupField]
    · simp [lookupField, h, ih]

theorem lookupField_filter (p : String × JSValue → Bool) (l : Fields) (k : String)
    (hp : ∀ kv ∈ l, kv.1 = k → p kv = true) :
    lookupField (l.filter p) k = lookupField l k := by
  induction l with
  | nil => rfl
  | cons kv rest ih =>
    obtain ⟨k1, v⟩ := kv
    have ihr : lookupField (rest.filter p) k = lookupField rest k :=
      ih fun kv hkv => hp kv (List.mem_cons_of_mem _ hkv)
    by_cases hk : k1 = k
    · subst hk
      have hpkv : p (k1, v) = true := hp (k1, v) (List.mem_cons_self _ _) rfl
      simp [List.filter_cons, hpkv, lookupField]
    · by_cases hpv : p (k1, v) = true
      · simp [List.filter_cons, hpv, lookupField, hk, ihr]
      · simp only [Bool.not_eq_true] at hpv
        simp [List.filter_cons, hpv, lookupField, hk, ihr]

theorem lookupField_merge_of_some (s u : Fields) (k : String) (v : JSValue)
    (h : lookupField s k = some v) :
    lookupField (mergeFields s u) k = some ((lookupField u k).getD v) := by
  unfold mergeFields
  rw [lookupField_append]
  rw [lookupField_map (fun key w => (lookupField u key).getD w) s k]
  rw [h]
  rfl

theorem lookupField_merge_of_none (s u : Fields) (k : String)
    (h : lookupField s k = none) :
    lookupField (mergeFields s u) k = lookupField u k := by
  unfold mergeFields
  rw [lookupField_append]
  rw [lookupField_map (fun key w => (lookupField u key).getD w) s k]
  rw [h]
  exact lookupField_filter _ u k fun kv _ hkv => by
    rw [hkv, h]
    rfl

/-- Merging the click handler's update object always leaves the committed
`hasBeenClicked` field equal to `true`, whatever the previous state held. -/
theorem lookupField_merge_click (s : Fields) :
    lookupField (mergeFields s clickFields) "hasBeenClicked" =
      some (JSValue.bool true) := by
  have hu : lookupField clickFields "hasBeenClicked" = some (JSValue.bool true) := by decide
  cases h : lookupField s "hasBeenClicked" with
  | none => rw [lookupField_merge_of_none s clickFields _ h, hu]
  | some w => rw [lookupField_merge_of_some s clickFields _ w h, hu]; rfl

theorem readClicked_merge_click (s : Fields) :
    readClicked (mergeFields s clickFields) = true := by
  unfold readClicked
  rw [lookupField_merge_click]
  rfl

/-- The display derivation is the two-valued mapping on the clicked flag. -/
theorem displayText_eq (st : Fields) :
    displayText st =
      if readClicked st then "I have been clicked!"
      else "I have not been clicked!" := by
  unfold displayText renderText
  cases readClicked st with
  | false => decide
  | true => decide

/-! ### Reachable operation sequences -/

/-- The operations that touch the widget state: the user clicking (the host
invoking `handleClick`) and React committing the queued batch. -/
inductive Op where
  | click
  | commitOp
deriving DecidableEq, Repr

/-- Apply one operation to the component. -/
def applyOp (c : Component) (o : Op) : Component :=
  match o with
  | Op.click => handleClick c
  | Op.commitOp => (commit c).1

/-- The component reached from a fresh instance by a sequence of operations. -/
def run (ops : List Op) : Component :=
  ops.foldl applyOp initComponent

/-- Every update the component ever queues is the click handler's. -/
def goodPending (c : Component) : Prop :=
  ∀ p ∈ c.pending, p = clickPending

theorem goodPending_applyOp (c : Component) (o : Op) (h : goodPending c) :
    goodPending (applyOp c o) := by
  cases o with
  | click =>
    intro p hp
    rcases List.mem_append.mp hp with hl | hr
    · exact h p hl
    · rcases List.mem_singleton.mp hr with rfl
      rfl
  | commitOp =>
    intro p hp
    exact absurd hp (List.not_mem_nil p)

theorem readClicked_foldl_merge (ps : List PendingUpdate) (st : Fields)
    (hps : ∀ p ∈ ps, p = clickPending) (hst : readClicked st = true) :
    readClicked (ps.foldl (fun a p => mergeFields a p.fields) st) = true := by
  induction ps generalizing st with
  | nil => exact hst
  | cons p rest ih =>
    have hp : p = clickPending := hps p (List.mem_cons_self _ _)
    subst hp
    exact ih _ (fun q hq => hps q (List.mem_cons_of_mem _ hq))
      (readClicked_merge_click st)

/-- Once the committed flag is `true`, no operation turns it back off, and
the queue keeps holding only click updates. -/
theorem clicked_preserved_applyOp (c : Component) (o : Op)
    (hg : goodPending c) (hc : readClicked c.state = true) :
    readClicked (applyOp c o).state = true := by
  cases o with
  | click => exact hc
  | commitOp => exact readClicked_foldl_merge c.pending c.state hg hc

theorem clicked_preserved_foldl (ops : List Op) (c : Component)
    (hg : goodPending c) (hc : readClicked c.state = true) :
    readClicked (ops.foldl applyOp c).state = true := by
  induction ops generalizing c with
  | nil => exact hc
  | cons o rest ih =>
    exact ih (applyOp c o) (goodPending_applyOp c o hg)
      (clicked_preserved_applyOp c o hg hc)

theorem goodPending_run (ops : List Op) : goodPending (run ops) := by
  unfold run
  induction ops using List.reverseRecOn with
  | nil => intro p hp; exact absurd hp (List.not_mem_nil p)
  | append_singleton rest o ih =>
    rw [List.foldl_append]
    exact goodPending_applyOp _ o ih

/-! ### Iterated clicks after the first commit -/

/-- The component after the first click has been committed. -/
def committedOnce : Component := (commit (handleClick initComponent)).1

/-- `n` further clicks in one batch. -/
def clickN : Nat → Component → Component
  | 0, c => c
  | n + 1, c => clickN n (handleClick c)

theorem clickN_eq (n : Nat) (c : Component) :
    clickN n c =
      { state := c.state, pending := c.pending ++ List.replicate n clickPending } := by
  induction n generalizing c with
  | zero => simp [clickN]
  | succ n ih =>
    show clickN n (handleClick c) = _
    rw [ih (handleClick c)]
    show ({ state := c.state,
            pending := (c.pending ++ [clickPending]) ++ List.replicate n clickPending }
          : Component) = _
    rw [List.append_assoc, List.singleton_append, ← List.replicate_succ]

theorem mergeFields_true_click :
    mergeFields [("hasBeenClicked", JSValue.bool true)] clickFields =
      [("hasBeenClicked", JSValue.bool true)] := by decide

theorem foldl_merge_true (n : Nat) :
    List.foldl (fun a p => mergeFields a p.fields)
        [("hasBeenClicked", JSValue.bool true)] (List.replicate n clickPending) =
      [("hasBeenClicked", JSValue.bool true)] := by
  induction n with
  | zero => rfl
  | succ n ih =>
    rw [List.replicate_succ, List.foldl_cons]
    show List.foldl _ (mergeFields [("hasBeenClicked", JSValue.bool true)] clickFields) _ = _
    rw [mergeFields_true_click, ih]

/-! ### Fallible (JS-faithful) versions of the operations -/

/-- JS property access `base.k`: on `undefined`/`null` it raises a
`TypeError`; on an object it yields the field or `undefined`.  `none`
stands for an absent (`undefined`) base object. -/
def jsMember (base : Option Fields) (k : String) : Except String JSValue :=
  match base with
  | none => Except.error "TypeError: cannot read properties of undefined"
  | some fs => Except.ok ((lookupField fs k).getD JSValue.undef)

/-- Run a fallible action over a list, collecting the results in order. -/
def mapME {A B : Type} (f : A → Except String B) : List A → Except String (List B)
  | [] => Except.ok []
  | a :: as => do
    let b ← f a
    let bs ← mapME f as
    Except.ok (b :: bs)

/-- The render path with its JS failure point explicit: reading
`this.state.hasBeenClicked` could only fail if `this.state` were absent. -/
def displayTextE (base : Option Fields) : Except String String := do
  let hb ← jsMember base "hasBeenClicked"
  Except.ok (squashSpaces
    ("I have " ++ (if truthy hb then "" else "not") ++ " been clicked!"))

/-- `setState` itself performs no validation and no I/O: enqueueing the
update object, with or without a callback, has no failure point. -/
def setStateE (c : Component) (u : Fields) (cb : Bool) : Except String Component :=
  Except.ok (setState c u cb)

/-- The commit path with its JS failure points explicit: each supplied
callback reads `this.state.hasBeenClicked` off the newly committed state. -/
def commitE (c : Component) : Except String (Component × List JSValue) := do
  let ns := c.pending.foldl (fun st p => mergeFields st p.fields) c.state
  let obs ← mapME (fun _ => jsMember (some ns) "hasBeenClicked")
    (c.pending.filter fun p => p.hasCallback)
  Except.ok ({ state := ns, pending := [] }, obs)

theorem mapME_jsMember (ns : Fields) (l : List PendingUpdate) :
    mapME (fun _ => jsMember (some ns) "hasBeenClicked") l =
      Except.ok (l.map fun _ => (lookupField ns "hasBeenClicked").getD JSValue.undef) := by
  induction l with
  | nil => rfl
  | cons p rest ih =>
    show (do
      let b ← jsMember (some ns) "hasBeenClicked"
      let bs ← mapME (fun _ => jsMember (some ns) "hasBeenClicked") rest
      Except.ok (b :: bs)) = _
    rw [ih]
    rfl


/-! ### Claim theorems -/

/-- Claim C1: `displayText` is the exact two-valued mapping: for every widget
state it yields `"I have not been clicked!"` when the clicked flag is false
and `"I have been clicked!"` when it is true; and one `trigger` (click)
followed by the commit yields `"I have been clicked!"`. -/
theorem claim_C1_displayText_mapping :
    (∀ st : Fields, readClicked st = false →
      displayText st = "I have not been clicked!") ∧
    (∀ st : Fields, readClicked st = true →
      displayText st = "I have been clicked!") ∧
    displayText (commit (handleClick initComponent)).1.state =
      "I have been clicked!" := by
  refine ⟨?_, ?_, by decide⟩
  · intro st h
    rw [displayText_eq, h]
    rfl
  · intro st h
    rw [displayText_eq, h]
    rfl

/-- Witness for C1 at the initial state: its clicked flag is false and the
mapping gives the not-clicked text. -/
theorem claim_C1_witness :
    readClicked initComponent.state = false ∧
    displayText initComponent.state = "I have not been clicked!" :=
  ⟨by decide, claim_C1_displayText_mapping.1 initComponent.state (by decide)⟩

theorem commit_handleClick_state (c : Component) :
    (commit (handleClick c)).1.state =
      mergeFields (c.pending.foldl (fun st p => mergeFields st p.fields) c.state)
        clickFields := by
  show List.foldl (fun st p => mergeFields st p.fields) c.state
      (c.pending ++ [clickPending]) = _
  rw [List.foldl_append]
  rfl

theorem commit_handleClick_clicked (c : Component) :
    lookupField (commit (handleClick c)).1.state "hasBeenClicked" =
      some (JSValue.bool true) := by
  rw [commit_handleClick_state]
  exact lookupField_merge_click _

theorem commit_obs_eq (c : Component) :
    (commit c).2 = ((c.pending.filter fun p => p.hasCallback).map
      fun _ => (lookupField (commit c).1.state "hasBeenClicked").getD JSValue.undef) :=
  rfl

/-- Claim C2: deferred visibility.  A `handleClick` call leaves the committed
state untouched (so a synchronous read right after the call still sees the
old value; from the initial state it still reads false), while every value a
completion callback observes at commit time is the new value `true`. -/
theorem claim_C2_deferred_visibility :
    (∀ c : Component, (handleClick c).state = c.state) ∧
    (∀ (c : Component) (v : JSValue),
      v ∈ (commit (handleClick c)).2 → v = JSValue.bool true) ∧
    readClicked (handleClick initComponent).state = false := by
  refine ⟨fun c => rfl, ?_, by decide⟩
  intro c v hv
  rw [commit_obs_eq] at hv
  rcases List.mem_map.mp hv with ⟨p, hp, hpe⟩
  rw [← hpe, commit_handleClick_clicked]
  rfl

/-- Witness for C2: the callback of the first click observes `true`, and the
synchronous read just after the call is unchanged. -/
theorem claim_C2_witness :
    JSValue.bool true = JSValue.bool true ∧
    (handleClick initComponent).state = initComponent.state :=
  ⟨claim_C2_deferred_visibility.2.1 initComponent (JSValue.bool true) (by decide),
   claim_C2_deferred_visibility.1 initComponent⟩

/-- Claim C3: a freshly constructed component has `hasBeenClicked` stored as
`false`, reads as not clicked, has nothing queued, and displays the
not-clicked text. -/
theorem claim_C3_initial :
    lookupField initComponent.state "hasBeenClicked" = some (JSValue.bool false) ∧
    readClicked initComponent.state = false ∧
    initComponent.pending = [] ∧
    displayText initComponent.state = "I have not been clicked!" := by
  decide

/-- Claim C4: the clicked flag only ever goes from false to true: along every
reachable operation sequence, once the committed flag reads true, it reads
true after any further operations. -/
theorem claim_C4_monotone (ops more : List Op)
    (h : readClicked (run ops).state = true) :
    readClicked (run (ops ++ more)).state = true := by
  have hrun : run (ops ++ more) = more.foldl applyOp (run ops) := by
    unfold run
    rw [List.foldl_append]
  rw [hrun]
  exact clicked_preserved_foldl more (run ops) (goodPending_run ops) h

/-- Witness for C4: after a click and a commit the flag is true, and it stays
true through another click and commit. -/
theorem claim_C4_witness :
    readClicked (run [Op.click, Op.commitOp]).state = true ∧
    readClicked (run ([Op.click, Op.commitOp] ++ [Op.click, Op.commitOp])).state = true :=
  ⟨by decide, claim_C4_monotone [Op.click, Op.commitOp] [Op.click, Op.commitOp] (by decide)⟩

theorem filter_replicate_click (n : Nat) :
    (List.replicate n clickPending).filter (fun p => p.hasCallback) =
      List.replicate n clickPending := by
  induction n with
  | zero => rfl
  | succ n ih =>
    rw [List.replicate_succ]
    show clickPending :: (List.replicate n clickPending).filter (fun p => p.hasCallback) =
      List.replicate (n + 1) clickPending
    rw [ih, List.replicate_succ]

/-- Claim C5: irreversibility and idempotence.  After the first committed
click, any number `n` of further clicks committed in one batch leave the
committed state exactly as it was, and the `n` supplied callbacks all fire,
each observing `true`. -/
theorem claim_C5_irreversible (n : Nat) :
    (commit (clickN n committedOnce)).1.state = committedOnce.state ∧
    (commit (clickN n committedOnce)).2 = List.replicate n (JSValue.bool true) := by
  have h1 : committedOnce.state = [("hasBeenClicked", JSValue.bool true)] := by decide
  have h2 : committedOnce.pending = [] := by decide
  have hc : clickN n committedOnce =
      { state := [("hasBeenClicked", JSValue.bool true)],
        pending := List.replicate n clickPending } := by
    rw [clickN_eq, h1, h2, List.nil_append]
  have hstate : (commit (clickN n committedOnce)).1.state =
      [("hasBeenClicked", JSValue.bool true)] := by
    rw [hc]
    show List.foldl (fun st p => mergeFields st p.fields)
      [("hasBeenClicked", JSValue.bool true)] (List.replicate n clickPending) = _
    exact foldl_merge_true n
  have hpend : (clickN n committedOnce).pending = List.replicate n clickPending := by
    rw [hc]
  constructor
  · rw [hstate, h1]
  · rw [commit_obs_eq]
    simp only [hstate, hpend]
    rw [filter_replicate_click n, List.map_replicate]
    have hval : (lookupField [("hasBeenClicked", JSValue.bool true)]
        "hasBeenClicked").getD JSValue.undef = JSValue.bool true := by decide
    rw [hval]

/-- Claim C6: exactly-once notification.  A commit fires exactly as many
callbacks as were supplied (one per queued update that carried one, none
otherwise), each click queues exactly one callback-carrying update, and every
fired callback observes the newly committed clicked value. -/
theorem claim_C6_exactly_once (c : Component) :
    ((commit c).2.length = (c.pending.filter fun p => p.hasCallback).length) ∧
    (((handleClick c).pending.filter fun p => p.hasCallback).length =
      (c.pending.filter fun p => p.hasCallback).length + 1) ∧
    (∀ v ∈ (commit c).2,
      v = (lookupField (commit c).1.state "hasBeenClicked").getD JSValue.undef) := by
  refine ⟨?_, ?_, ?_⟩
  · rw [commit_obs_eq]
    exact List.length_map _ _
  · show ((c.pending ++ [clickPending]).filter fun p => p.hasCallback).length = _
    rw [List.filter_append, List.length_append]
    rfl
  · intro v hv
    rw [commit_obs_eq] at hv
    rcases List.mem_map.mp hv with ⟨p, hp, hpe⟩
    exact hpe.symm

/-- Witness for C6: the first click's callback observes the committed value. -/
theorem claim_C6_witness :
    JSValue.bool true =
      (lookupField (commit (handleClick initComponent)).1.state
        "hasBeenClicked").getD JSValue.undef :=
  (claim_C6_exactly_once (handleClick initComponent)).2.2 (JSValue.bool true) (by decide)

/-- Claim C7: the read is pure and idempotent: rendering returns the display
text, leaves the component untouched, and a repeated call returns the same
string. -/
theorem claim_C7_pure_read (c : Component) :
    (displayTextOp c).2 = c ∧
    (displayTextOp ((displayTextOp c).2)).1 = (displayTextOp c).1 ∧
    (displayTextOp c).1 = displayText c.state :=
  ⟨rfl, rfl, rfl⟩

/-- Claim C8: no failure is reachable: the render path succeeds on every
state object, enqueueing an update succeeds for every update object whether
or not a callback is supplied, and the commit path (callbacks included)
succeeds for every component. -/
theorem claim_C8_no_failure :
    (∀ st : Fields, displayTextE (some st) = Except.ok (displayText st)) ∧
    (∀ (c : Component) (u : Fields) (cb : Bool),
      setStateE c u cb = Except.ok (setState c u cb)) ∧
    (∀ c : Component, commitE c = Except.ok (commit c)) := by
  refine ⟨fun st => rfl, fun c u cb => rfl, fun c => ?_⟩
  simp only [commitE]
  rw [mapME_jsMember]
  rfl

/-- Claim C9: frame property.  The click handler's update object names only
`hasBeenClicked`, so the shallow merge it induces leaves every other field of
any state unchanged. -/
theorem claim_C9_frame :
    clickFields = [("hasBeenClicked", JSValue.bool true)] ∧
    ∀ (s : Fields) (k : String), k ≠ "hasBeenClicked" →
      lookupField (mergeFields s clickFields) k = lookupField s k := by
  refine ⟨rfl, fun s k hk => ?_⟩
  have hu : lookupField clickFields k = none := by
    show (if "hasBeenClicked" = k then some (JSValue.bool true) else none) = none
    rw [if_neg fun h => hk h.symm]
  cases h : lookupField s k with
  | none => rw [lookupField_merge_of_none s clickFields k h, hu]
  | some v =>
    rw [lookupField_merge_of_some s clickFields k v h, hu]
    rfl

/-- Witness for C9: merging the click update into a state that also carries a
`currentTheme` field leaves that field unchanged. -/
theorem claim_C9_witness :
    ("currentTheme" : String) ≠ "hasBeenClicked" ∧
    lookupField (mergeFields
        [("hasBeenClicked", JSValue.bool false), ("currentTheme", JSValue.str "blue")]
        clickFields) "currentTheme" =
      lookupField
        [("hasBeenClicked", JSValue.bool false), ("currentTheme", JSValue.str "blue")]
        "currentTheme" :=
  ⟨by decide, claim_C9_frame.2 _ "currentTheme" (by decide)⟩

/-- Claim C10: noninterference.  The click handler declares no parameter, so
the transition it performs is the same whatever event argument is passed:
from equal components, any two invocations with any events agree. -/
theorem claim_C10_event_independent :
    ∀ (E1 E2 : Type) (c1 c2 : Component) (e1 : E1) (e2 : E2),
      c1 = c2 → handleClickEv c1 e1 = handleClickEv c2 e2 := by
  intro E1 E2 c1 c2 e1 e2 h
  rw [h]
  rfl

/-- Witness for C10: two clicks on the fresh component with different event
payloads produce the same component. -/
theorem claim_C10_witness :
    handleClickEv initComponent (0 : Nat) = handleClickEv initComponent "event" :=
  claim_C10_event_independent Nat String initComponent initComponent 0 "event" rfl
